import Mathlib

/-!
Shallow embedding of the fau-fablab/spaceapi door-state tracker.

Sources embedded here:
* `src/spaceapi/lib_doorstate.py` — `DoorState`, `calculate_hmac`, `human_time_since`,
  `to_timestamp`.
* `src/spaceapi/spaceapi.py` — the `OpeningPeriod` / `Event` models and the
  `update_doorstate` / `get_doorstate` endpoint logic.
* `src/spaceapi/doorstate_client.py` — `_open_ranges_with_end`, `plot_by_hour`,
  `plot_by_week` (their interval arithmetic; the matplotlib rendering calls are
  represented by the segment / bucket data they would draw).

Modelling conventions:
* Timestamps are `Int` epoch seconds (Python stores tz-aware datetimes but all
  comparisons and arithmetic in the code reduce to epoch-second arithmetic;
  `to_timestamp` is `int(time.timestamp())`).
* The `openingperiod` table is a `List Period` in ascending `opened` order
  (`opened` is the primary key); the row returned by
  `OpeningPeriod.query.order_by(desc(opened)).first()` is the last list element.
* The keyed MD5-HMAC primitive (`hmac.new(key, digestmod=md5)`, from the Python
  standard library, outside this repository) is abstracted as a parameter
  `hmacHex : String → String → String` (key, message ↦ hex digest); the
  repository's own `calculate_hmac` logic — hashing the exact formatted string
  `"{time}:{state}"` — is kept.  `hmac.compare_digest` returns the same boolean
  as equality; its constant-time execution is a timing property outside a
  functional model.
* Calendar arithmetic (`datetime.date()`, `.weekday()`, `.time()`) is done on
  epoch seconds: a day is 86400 s, day 0 (1970-01-01) was a Thursday, so the
  Monday-based weekday of epoch day `d` is `(d + 3) % 7`.
-/

/-- The `DoorState` enum from `lib_doorstate.py`: valid door state values. -/
inductive DoorState
  | opened
  | closed
deriving DecidableEq, Repr

/-- Enum member name `DoorState.name` — the Python enum member name. -/
def DoorState.name : DoorState → String
  | .opened => "opened"
  | .closed => "closed"

/-- An `OpeningPeriod` row (`spaceapi.py`): a span the door was open; `closed` is
nullable. -/
structure Period where
  opened : Int
  closed : Option Int
deriving DecidableEq, Repr

/-- Property `OpeningPeriod.is_open`: true iff this entry has no closed time. -/
def Period.is_open (p : Period) : Bool := p.closed.isNone

/-- Property `OpeningPeriod.state`: `DoorState.opened` if open else `DoorState.closed`. -/
def Period.state (p : Period) : DoorState :=
  if p.is_open then DoorState.opened else DoorState.closed

/-- Property `OpeningPeriod.last_change_timestamp`: `opened` if open, else `closed`. -/
def Period.last_change_timestamp (p : Period) : Int :=
  match p.closed with
  | none => p.opened
  | some c => c

/-- The persistent state used by the endpoints: the `openingperiod` table in
ascending `opened` order, and the `last_update` event timestamp
(`Event.get_last_update`). -/
structure Store where
  periods : List Period
  lastUpdate : Int
deriving DecidableEq, Repr

/-- Fresh database: no periods, `last_update` created with
`datetime.fromtimestamp(0)`. -/
def emptyStore : Store := { periods := [], lastUpdate := 0 }

/-- JSON reply of the door-state endpoints (`time`, `state`, text field). -/
structure Reply where
  time : Int
  state : String
  text : String
deriving DecidableEq, Repr

/-- Result of a POST to `/spaceapi/door/`: success with the new store and
reply, an `abort(400, {field: message})`, or the `abort(500)` branch. -/
inductive DoorResult
  | ok (s : Store) (r : Reply)
  | badRequest (field msg : String)
  | serverError (msg : String)
deriving DecidableEq, Repr

/-- The mutation phase of `update_doorstate` (`spaceapi.py` lines 349-373):
close the latest open period, or add a new period, then commit and
`Event.touch_last_update()`; any other combination is `abort(500)`. -/
def apply_update (now t : Int) (state : DoorState) (s : Store) : DoorResult :=
  match s.periods.getLast? with
  | some l =>
    if l.is_open && state == DoorState.closed then
      let l' : Period := { l with closed := some t }
      DoorResult.ok { periods := s.periods.dropLast ++ [l'], lastUpdate := now }
        { time := l'.last_change_timestamp, state := l'.state.name,
          text := "door is now " ++ l'.state.name ++ " (time: "
                    ++ toString l'.last_change_timestamp ++ ")" }
    else if !l.is_open && state == DoorState.opened then
      let l' : Period := { opened := t, closed := none }
      DoorResult.ok { periods := s.periods ++ [l'], lastUpdate := now }
        { time := l'.last_change_timestamp, state := l'.state.name,
          text := "door is now " ++ l'.state.name ++ " (time: "
                    ++ toString l'.last_change_timestamp ++ ")" }
    else DoorResult.serverError "This should not happen"
  | none =>
    if state == DoorState.opened then
      let l' : Period := { opened := t, closed := none }
      DoorResult.ok { periods := s.periods ++ [l'], lastUpdate := now }
        { time := l'.last_change_timestamp, state := l'.state.name,
          text := "door is now " ++ l'.state.name ++ " (time: "
                    ++ toString l'.last_change_timestamp ++ ")" }
    else DoorResult.serverError "This should not happen"

/-- The transition engine of `update_doorstate` (`spaceapi.py` lines 324-373),
after field validation: a validated claim `(t, state)` is applied to the
store.  Duplicate-state claims are a no-op that still touches `last_update`;
non-monotonic times are rejected with a 400; the bootstrap "no entry and
claim closed" case replies "already closed" without touching anything;
otherwise the mutation phase runs. -/
def update_doorstate_transition (now t : Int) (state : DoorState) (s : Store) :
    DoorResult :=
  match s.periods.getLast? with
  | some l =>
    if l.state == state then
      DoorResult.ok { s with lastUpdate := now }
        { time := l.last_change_timestamp, state := l.state.name,
          text := "door was already " ++ l.state.name ++ " at "
                    ++ toString l.last_change_timestamp }
    else if l.last_change_timestamp ≥ t then
      DoorResult.badRequest "time" "New entry must be newer than latest entry."
    else apply_update now t state s
  | none =>
    if state == DoorState.closed then
      DoorResult.ok s
        { time := 0, state := DoorState.closed.name,
          text := "door was already closed."
                    ++ " To be honest, we don\x27t have any data yet but the"
                    ++ " first entry has to be \x27opened\x27." }
    else apply_update now t state s

/-- Fold one claim into the store: on success keep the new store, on a 400 or
500 the transaction is aborted and the store is unchanged. -/
def applyClaim (s : Store) (c : Int × Int × DoorState) : Store :=
  match update_doorstate_transition c.1 c.2.1 c.2.2 s with
  | DoorResult.ok s' _ => s'
  | _ => s

/-- Fold a sequence of claims (each `(serverNow, time, state)`) into the
store. -/
def applyClaims (cs : List (Int × Int × DoorState)) (s : Store) : Store :=
  cs.foldl applyClaim s

example : applyClaims [(1, 100, DoorState.opened), (2, 200, DoorState.closed)] emptyStore
    = { periods := [{ opened := 100, closed := some 200 }], lastUpdate := 2 } := by decide

example : update_doorstate_transition 5 50 DoorState.closed
    { periods := [{ opened := 100, closed := none }], lastUpdate := 0 }
    = DoorResult.badRequest "time" "New entry must be newer than latest entry." := by decide

/-- The raw POST body of `/spaceapi/door/`: `request.json or request.form`,
each field a string when present. -/
structure RawClaim where
  time : Option String
  state : Option String
  hmac : Option String
deriving DecidableEq, Repr

/-- Python falsiness of `data.get(param, None)` for a string field: `None` or
the empty string. -/
def fieldFalsy : Option String → Bool
  | none => true
  | some s => s.isEmpty

/-- Python `str.isnumeric` restricted to the ASCII digit strings the API works with:
nonempty and all characters decimal digits. -/
def isnumericStr (s : String) : Bool := !s.isEmpty && s.all Char.isDigit

/-- Python `int(...)` on a decimal digit string. -/
def strToNat (s : String) : Nat :=
  s.foldl (fun n c => 10 * n + (c.toNat - 48)) 0

/-- Function `calculate_hmac` from `lib_doorstate.py`: the hex digest of the keyed HMAC
of the exact string `"{time}:{state}"`.  The keyed-MD5 primitive from the
Python standard library is the parameter `hmacHex` (key, message ↦ digest). -/
def calculate_hmac (hmacHex : String → String → String)
    (time state key : String) : String :=
  hmacHex key (time ++ ":" ++ state)

/-- The validation phase of `update_doorstate` (`spaceapi.py` lines 302-323):
missing-field check, HMAC digest check (`hmac.compare_digest`, functionally
string equality), numeric-time check, 60-second clock-skew check, and
state-value check, in that order; errors are the `(field, message)` pairs
raised as `ValueError` and surfaced by `abort(400, {field: message})`.
The source iterates the *set* `{time, state, hmac}` for the missing-field
check; the model fixes the order time, state, hmac, which only affects which
of several simultaneously missing fields is named. -/
def validate (hmacHex : String → String → String) (key : String) (now : Int)
    (d : RawClaim) : Except (String × String) (Int × DoorState) :=
  if fieldFalsy d.time then Except.error ("time", "Parameter is missing")
  else if fieldFalsy d.state then Except.error ("state", "Parameter is missing")
  else if fieldFalsy d.hmac then Except.error ("hmac", "Parameter is missing")
  else
    let tm := d.time.getD ""
    let st := d.state.getD ""
    let hm := d.hmac.getD ""
    if calculate_hmac hmacHex tm st key ≠ hm then
      Except.error ("hmac", "HMAC digest is wrong. Do you have the right key?")
    else if !isnumericStr tm then
      Except.error ("time", "Time has to be an integer timestamp.")
    else
      let t : Int := (strToNat tm : Int)
      if (t - now).natAbs > 60 then
        Except.error ("time", "Time is too far in the future or past. Use NTP!")
      else if st ≠ "opened" && st ≠ "closed" then
        Except.error ("state", "State has to be one of opened, closed.")
      else
        Except.ok (t, if st == "opened" then DoorState.opened else DoorState.closed)

/-- The whole POST handler `update_doorstate`: validation then transition. -/
def update_doorstate (hmacHex : String → String → String) (key : String)
    (now : Int) (d : RawClaim) (s : Store) : DoorResult :=
  match validate hmacHex key now d with
  | Except.error (f, m) => DoorResult.badRequest f m
  | Except.ok (t, st) => update_doorstate_transition now t st s

/-- Classmethod `Event.last_update_is_outdated` (`spaceapi.py` lines 96-102): the
`last_update` timestamp is more than 10 minutes (600 s) in the past. -/
def last_update_is_outdated (now lastUpdate : Int) : Bool :=
  now - lastUpdate > 600

/-- Function `human_time_since` from `lib_doorstate.py`: German description of the
duration from `time_from` to `time_to` (seconds); Python floor division on the
positive durations involved equals `Int` division. -/
def human_time_since (time_from time_to : Int) : String :=
  let diff := time_to - time_from
  if diff < 60 then "wenigen Sekunden"
  else if diff < 60 * 2 then "einer Minute"
  else if diff < 60 * 60 then toString (diff / 60) ++ " Minuten"
  else if diff < 60 * 60 * 2 then "einer Stunde"
  else if diff < 60 * 60 * 24 then toString (diff / (60 * 60)) ++ " Stunden"
  else if diff < 60 * 60 * 24 * 2 then "einem Tag"
  else if diff < 60 * 60 * 24 * 7 then toString (diff / (60 * 60 * 24)) ++ " Tagen"
  else if diff < 60 * 60 * 24 * 7 * 2 then "einer Woche"
  else toString (diff / (60 * 60 * 24 * 7)) ++ " Wochen"

/-- Local calendar date (epoch day number) of an epoch-second instant, for a
timezone `tzOff` seconds east of UTC; `Int.fdiv` floors like Python. -/
def localDate (tzOff t : Int) : Int := Int.fdiv (t + tzOff) 86400

/-- GET `/spaceapi/door/` (`spaceapi.py` lines 269-291): report the latest
period's state, or `unknown` with the no-current-information text when the
`last_update` marker is outdated or no period exists. -/
def get_doorstate (now tzOff : Int) (s : Store) : Reply :=
  let outdated := last_update_is_outdated now s.lastUpdate || s.periods.getLast?.isNone
  match s.periods.getLast? with
  | none =>
    { state := "unknown", time := 0,
      text := "Keine aktuellen Informationen über den Türstatus vorhanden." }
  | some l =>
    let text :=
      if outdated then "Keine aktuellen Informationen über den Türstatus vorhanden."
      else
        match l.closed with
        | some c =>
          if localDate tzOff c ≠ localDate tzOff now then
            "Das FabLab war heute noch nicht geöffnet."
          else
            "Das FabLab war zuletzt vor " ++ human_time_since c now ++ " geöffnet."
        | none =>
          "Die FabLab-Tür ist seit " ++ human_time_since l.opened now ++ " offen."
    { state := if outdated then "unknown" else l.state.name,
      time := l.opened, text := text }

example : (get_doorstate 1660 0
    { periods := [{ opened := 10, closed := some 20 }], lastUpdate := 1000 }).state
    = "unknown" := by decide

/-- An element of the history list consumed by the plot functions in
`doorstate_client.py`: a `time`/`state` event entry. -/
structure HistEntry where
  time : Int
  state : String
deriving DecidableEq, Repr

/-- A yielded open range: `start`/`end` of a span the door was open (`end` is a
Lean keyword, hence `stop`). -/
structure OpenRange where
  start : Int
  stop : Int
deriving DecidableEq, Repr

/-- The loop body of `_open_ranges_with_end`: `last` holds the previous entry;
each further entry yields the range `[last.time, entry.time)` when the previous
entry's state is `"open"`. -/
def openRangesGo (last : HistEntry) : List HistEntry → List OpenRange
  | [] => []
  | e :: rest =>
    (if last.state == "open" then [{ start := last.time, stop := e.time }] else [])
      ++ openRangesGo e rest

/-- Generator `_open_ranges_with_end` (`doorstate_client.py` lines 45-73): take the first
entry with `next(list_iterator)` — which raises on an empty list (a
`StopIteration` escaping the generator, a `RuntimeError` under PEP 479) — then
pair consecutive entries, yielding a range for each entry whose state is
`"open"` and that is followed by another entry. -/
def open_ranges_with_end (l : List HistEntry) : Except String (List OpenRange) :=
  match l with
  | [] => Except.error "StopIteration"
  | first :: rest => Except.ok (openRangesGo first rest)

/-- Calendar date (epoch day number) of a naive-UTC instant
(`datetime.utcfromtimestamp(t).date()`). -/
def dateOf (t : Int) : Int := Int.fdiv t 86400

/-- Hour-of-day fraction `time().hour + time().minute / 60` of a naive-UTC
instant, as an exact rational. -/
def hourFrac (t : Int) : ℚ :=
  let sod := Int.emod t 86400
  (sod / 3600 : Int) + ((Int.emod sod 3600) / 60 : Int) / 60

/-- One vertical segment drawn by `plot_by_hour`: `plot.vlines(day, lo, hi)`. -/
structure Segment where
  day : Int
  lo : ℚ
  hi : ℚ
deriving DecidableEq, Repr

/-- The per-range body of `plot_by_hour` (`doorstate_client.py` lines 81-91):
split a range at a day boundary into `(startDay, startHour, 24)` and
`(endDay, 0, endHour)`, else a single `(startDay, startHour, endHour)`. -/
def hourSegments (r : OpenRange) : List Segment :=
  let starthour := hourFrac r.start
  let endhour := hourFrac r.stop
  if dateOf r.start ≠ dateOf r.stop then
    [{ day := dateOf r.start, lo := starthour, hi := 24 },
     { day := dateOf r.stop, lo := 0, hi := endhour }]
  else
    [{ day := dateOf r.start, lo := starthour, hi := endhour }]

/-- Function `plot_by_hour` (`doorstate_client.py` lines 76-105) as the list of segments
it draws: the exception of `_open_ranges_with_end` on an empty history
propagates. -/
def plot_by_hour (l : List HistEntry) : Except String (List Segment) :=
  (open_ranges_with_end l).map (fun rs => rs.flatMap hourSegments)

/-- Midnight of the most recent Monday at or before the instant `t`
(`start - timedelta(days=start.weekday())`, then `.date()` combined with
`time(0)`): epoch day 0 was a Thursday, so the Monday-based weekday of epoch
day `d` is `(d + 3) % 7`. -/
def mondayMidnight (t : Int) : Int :=
  let day := Int.fdiv t 86400
  let wd := Int.emod (day + 3) 7
  (day - wd) * 86400

/-- The `while True` sweep of `plot_by_week` (`doorstate_client.py` lines
117-124) for one range: each pass adds `min(end, next_monday) - start` seconds
to the bucket `last_monday`, advances `start` to `min(end, next_monday)` and
`last_monday` by 7 days, and stops once `start` has reached `end`. -/
def weekSweep (start last_monday stop : Int) : List (Int × Int) :=
  let next_monday := last_monday + 7 * 86400
  if stop ≤ next_monday then
    [(last_monday, min stop next_monday - start)]
  else
    (last_monday, min stop next_monday - start) :: weekSweep next_monday next_monday stop
termination_by (stop - last_monday).toNat
decreasing_by
  simp_wf
  omega

/-- Function `plot_by_week` (`doorstate_client.py` lines 108-146) as the list of
per-bucket duration contributions (in seconds) it accumulates into
`data_by_week`: buckets are Monday-midnight instants; the exception of
`_open_ranges_with_end` on an empty history propagates. -/
def plot_by_week (l : List HistEntry) : Except String (List (Int × Int)) :=
  (open_ranges_with_end l).map
    (fun rs => rs.flatMap (fun r => weekSweep r.start (mondayMidnight r.start) r.stop))

example : open_ranges_with_end
    [{ time := 0, state := "open" }, { time := 10, state := "close" },
     { time := 20, state := "open" }]
    = Except.ok [{ start := 0, stop := 10 }] := rfl

/-! ## Helper lemmas -/

/-- One range's week sweep contributions telescope to the range's total
duration, whatever the initial bucket. -/
theorem weekSweep_sum (s m e : Int) :
    ((weekSweep s m e).map Prod.snd).sum = e - s := by
  by_cases h : e ≤ m + 7 * 86400
  · rw [weekSweep]
    simp only [if_pos h, List.map_cons, List.map_nil, List.sum_cons, List.sum_nil]
    have : min e (m + 7 * 86400) = e := min_eq_left h
    omega
  · rw [weekSweep]
    simp only [if_neg h, List.map_cons, List.sum_cons]
    have hrec := weekSweep_sum (m + 7 * 86400) (m + 7 * 86400) e
    have : min e (m + 7 * 86400) = m + 7 * 86400 := min_eq_right (by omega)
    omega
termination_by (e - m).toNat
decreasing_by omega

/-- Ranges are yielded exactly for the non-final entries whose state is
`"open"`. -/
theorem openRangesGo_length (last : HistEntry) (rest : List HistEntry) :
    (openRangesGo last rest).length
      = ((last :: rest).dropLast.filter (fun e => e.state == "open")).length := by
  induction rest generalizing last with
  | nil => rfl
  | cons e rest ih =>
    rw [openRangesGo, List.dropLast_cons₂, List.filter_cons]
    by_cases h : last.state == "open"
    · simp only [if_pos h, List.length_append, List.length_cons, List.length_nil, ih e]
      omega
    · simp only [if_neg h, List.nil_append, ih e, List.length_cons]

/-! ## Claim theorems: aggregation engine -/

/-- C7: for a single period with `start ≤ end`, the by-week sweep of
`plot_by_week` terminates with a bucket list, and the durations it adds to the
week buckets touched by the period sum exactly to the period's total duration
`end − start` (in seconds; the rendering as hours divides by 3600, which is
where the only floating rounding happens). -/
theorem c7_byweek_roundtrip (s e : Int) (h : s ≤ e) :
    ∃ buckets,
      plot_by_week [{ time := s, state := "open" }, { time := e, state := "close" }]
          = Except.ok buckets ∧
        (buckets.map Prod.snd).sum = e - s := by
  refine ⟨weekSweep s (mondayMidnight s) e, ?_, weekSweep_sum s (mondayMidnight s) e⟩
  simp [plot_by_week, open_ranges_with_end, openRangesGo, Except.map]

/-- C7 witness: a concrete two-week period. -/
theorem c7_byweek_roundtrip_witness :
    ∃ buckets,
      plot_by_week [{ time := 0, state := "open" }, { time := 1209600, state := "close" }]
          = Except.ok buckets ∧
        (buckets.map Prod.snd).sum = 1209600 - 0 :=
  c7_byweek_roundtrip 0 1209600 (by decide)

/-- C8: a range whose start and end fall on different calendar days produces
exactly the two segments `(startDay, startHourFraction, 24)` and
`(endDay, 0, endHourFraction)`; a range within one day produces exactly one
segment; and the concrete period opened Monday 2018-01-01 23:00 UTC and closed
Tuesday 2018-01-02 01:00 UTC yields `(Mon, 23.0, 24.0)` and `(Tue, 0.0, 1.0)`. -/
theorem c8_byhour_day_split (r : OpenRange) :
    (dateOf r.start ≠ dateOf r.stop →
      hourSegments r =
        [{ day := dateOf r.start, lo := hourFrac r.start, hi := 24 },
         { day := dateOf r.stop, lo := 0, hi := hourFrac r.stop }]) ∧
    (dateOf r.start = dateOf r.stop →
      hourSegments r =
        [{ day := dateOf r.start, lo := hourFrac r.start, hi := hourFrac r.stop }]) ∧
    plot_by_hour
        [{ time := 1514847600, state := "open" }, { time := 1514854800, state := "close" }]
      = Except.ok
          [{ day := 17532, lo := 23, hi := 24 }, { day := 17533, lo := 0, hi := 1 }] := by
  refine ⟨fun h => ?_, fun h => ?_, ?_⟩
  · simp [hourSegments, h]
  · simp [hourSegments, h]
  · simp only [plot_by_hour, open_ranges_with_end, openRangesGo, Except.map]
    norm_num [hourSegments, hourFrac, dateOf, Segment.mk.injEq]
    rw [if_neg (by decide)]
    decide

/-- C8 witness: the general split applied to the concrete Monday-to-Tuesday
range. -/
theorem c8_byhour_day_split_witness :
    hourSegments { start := 1514847600, stop := 1514854800 } =
      [{ day := dateOf 1514847600, lo := hourFrac 1514847600, hi := 24 },
       { day := dateOf 1514854800, lo := 0, hi := hourFrac 1514854800 }] :=
  (c8_byhour_day_split { start := 1514847600, stop := 1514854800 }).1 (by decide)

/-- C9 counterexample: a history whose last (and only) entry is a still-open
`"open"` event yields no range and no aggregation data at all — the claim that
both aggregations include the still-open period up to "now" is false (there is
no reference instant anywhere in the code). -/
theorem c9_counterexample :
    plot_by_hour [{ time := 0, state := "open" }] = Except.ok [] ∧
    plot_by_week [{ time := 0, state := "open" }] = Except.ok [] :=
  ⟨rfl, rfl⟩

/-- C9 (amended): on a nonempty history the generator succeeds and yields
exactly one range per *non-final* entry with state `"open"`; the final entry —
in particular a trailing still-open event — is dropped, not extended to
"now". -/
theorem c9_trailing_open_dropped (l : List HistEntry) (h : l ≠ []) :
    ∃ rs, open_ranges_with_end l = Except.ok rs ∧
      rs.length = (l.dropLast.filter (fun e => e.state == "open")).length := by
  match l, h with
  | first :: rest, _ =>
    exact ⟨openRangesGo first rest, rfl, openRangesGo_length first rest⟩

/-- C9 witness: three entries, the last an open event; only one range
results. -/
theorem c9_trailing_open_dropped_witness :
    ∃ rs, open_ranges_with_end
        [{ time := 0, state := "open" }, { time := 10, state := "close" },
         { time := 20, state := "open" }] = Except.ok rs ∧
      rs.length = (([{ time := 0, state := "open" }, { time := 10, state := "close" },
         { time := 20, state := "open" }] : List HistEntry).dropLast.filter
          (fun e => e.state == "open")).length :=
  c9_trailing_open_dropped _ (by decide)

/-- C10: on an empty history list the range pairing calls `next()` on an
exhausted iterator and raises instead of yielding an empty sequence, so both
aggregations fail on empty input rather than producing empty summaries. -/
theorem c10_empty_history_raises :
    plot_by_hour [] = Except.error "StopIteration" ∧
    plot_by_week [] = Except.error "StopIteration" :=
  ⟨rfl, rfl⟩

/-! ## Claim theorems: transition engine and staleness -/

/-- C2: when the latest period exists and its state differs from the claimed
state, a validated claim with `time ≤ latestChangeTimestamp` (the period's
`opened` if it is open, else its `closed`) is rejected with the
non-monotonic-time 400 error and the store is left unchanged; a claim with a
strictly greater time is accepted. -/
theorem c2_monotonicity (now t : Int) (st : DoorState) (s : Store) (l : Period)
    (hl : s.periods.getLast? = some l) (hne : l.state ≠ st) :
    (t ≤ l.last_change_timestamp →
      update_doorstate_transition now t st s
          = DoorResult.badRequest "time" "New entry must be newer than latest entry." ∧
        applyClaim s (now, t, st) = s) ∧
    (l.last_change_timestamp < t →
      ∃ s' r, update_doorstate_transition now t st s = DoorResult.ok s' r) := by
  have hbeq : (l.state == st) = false := by
    cases hls : l.state <;> cases st <;> simp_all
  constructor
  · intro hle
    have hres : update_doorstate_transition now t st s
        = DoorResult.badRequest "time" "New entry must be newer than latest entry." := by
      unfold update_doorstate_transition
      rw [hl]
      simp only [hbeq, Bool.false_eq_true, if_false]
      rw [if_pos (by omega)]
    exact ⟨hres, by simp [applyClaim, hres]⟩
  · intro hlt
    unfold update_doorstate_transition
    rw [hl]
    simp only [hbeq, Bool.false_eq_true, if_false]
    rw [if_neg (by omega)]
    unfold apply_update
    rw [hl]
    cases hc : l.closed with
    | none =>
      have hopen : l.is_open = true := by simp [Period.is_open, hc]
      have hst : st = DoorState.closed := by
        cases st
        · exact absurd (by simp [Period.state, hopen]) hne
        · rfl
      subst hst
      simp [hopen]
    | some c =>
      have hopen : l.is_open = false := by simp [Period.is_open, hc]
      have hst : st = DoorState.opened := by
        cases st
        · rfl
        · exact absurd (by simp [Period.state, hopen]) hne
      subst hst
      simp [hopen]

/-- C2 witness: latest period `{opened := 100}` (open); a `closed` claim at
time 50 is rejected and leaves the store unchanged, and one at time 200 is
accepted. -/
theorem c2_monotonicity_witness :
    ((50 : Int) ≤ Period.last_change_timestamp { opened := 100, closed := none } →
      update_doorstate_transition 7 50 DoorState.closed
          { periods := [{ opened := 100, closed := none }], lastUpdate := 0 }
          = DoorResult.badRequest "time" "New entry must be newer than latest entry." ∧
        applyClaim { periods := [{ opened := 100, closed := none }], lastUpdate := 0 }
            (7, 50, DoorState.closed)
          = { periods := [{ opened := 100, closed := none }], lastUpdate := 0 }) ∧
    (Period.last_change_timestamp { opened := 100, closed := none } < (200 : Int) →
      ∃ s' r, update_doorstate_transition 7 200 DoorState.closed
          { periods := [{ opened := 100, closed := none }], lastUpdate := 0 }
          = DoorResult.ok s' r) :=
  ⟨fun h => (c2_monotonicity 7 50 DoorState.closed
      { periods := [{ opened := 100, closed := none }], lastUpdate := 0 }
      { opened := 100, closed := none } rfl (by decide)).1 h,
   fun h => (c2_monotonicity 7 200 DoorState.closed
      { periods := [{ opened := 100, closed := none }], lastUpdate := 0 }
      { opened := 100, closed := none } rfl (by decide)).2 h⟩

/-- C3: when the latest period exists and already has the claimed state, the
engine returns a no-op success (never an error): the period list is untouched
(only the `last_update` marker moves to the server time), and resubmitting the
same `(time, state)` claim gives the identical reply and the identical period
sequence — hence the identical derived state. -/
theorem c3_idempotent_duplicate (now now2 t : Int) (st : DoorState) (s : Store)
    (l : Period) (hl : s.periods.getLast? = some l) (hst : l.state = st) :
    update_doorstate_transition now t st s
        = DoorResult.ok { s with lastUpdate := now }
            { time := l.last_change_timestamp, state := l.state.name,
              text := "door was already " ++ l.state.name ++ " at "
                        ++ toString l.last_change_timestamp } ∧
    update_doorstate_transition now2 t st { s with lastUpdate := now }
        = DoorResult.ok { s with lastUpdate := now2 }
            { time := l.last_change_timestamp, state := l.state.name,
              text := "door was already " ++ l.state.name ++ " at "
                        ++ toString l.last_change_timestamp } := by
  have hbeq : (l.state == st) = true := by rw [hst]; cases st <;> rfl
  constructor
  · unfold update_doorstate_transition
    rw [hl]
    simp [hbeq]
  · unfold update_doorstate_transition
    rw [show ({ s with lastUpdate := now } : Store).periods.getLast? = some l from hl]
    simp [hbeq]

/-- C3 witness: latest period `{opened := 100, closed := some 200}` (closed), a
duplicate `closed` claim at time 250 twice. -/
theorem c3_idempotent_duplicate_witness :
    update_doorstate_transition 7 250 DoorState.closed
        { periods := [{ opened := 100, closed := some 200 }], lastUpdate := 0 }
        = DoorResult.ok { periods := [{ opened := 100, closed := some 200 }], lastUpdate := 7 }
            { time := Period.last_change_timestamp { opened := 100, closed := some 200 },
              state := (Period.state { opened := 100, closed := some 200 }).name,
              text := "door was already "
                        ++ (Period.state { opened := 100, closed := some 200 }).name
                        ++ " at "
                        ++ toString (Period.last_change_timestamp
                              { opened := 100, closed := some 200 }) } ∧
    update_doorstate_transition 9 250 DoorState.closed
        { periods := [{ opened := 100, closed := some 200 }], lastUpdate := 7 }
        = DoorResult.ok { periods := [{ opened := 100, closed := some 200 }], lastUpdate := 9 }
            { time := Period.last_change_timestamp { opened := 100, closed := some 200 },
              state := (Period.state { opened := 100, closed := some 200 }).name,
              text := "door was already "
                        ++ (Period.state { opened := 100, closed := some 200 }).name
                        ++ " at "
                        ++ toString (Period.last_change_timestamp
                              { opened := 100, closed := some 200 }) } :=
  c3_idempotent_duplicate 7 9 250 DoorState.closed
    { periods := [{ opened := 100, closed := some 200 }], lastUpdate := 0 }
    { opened := 100, closed := some 200 } rfl (by decide)

/-- C4 counterexample: on the empty store a validated `closed` claim at server
time 1000 replies with the "already closed" no-op success, but the store it
returns is the *unchanged* `emptyStore`, whose `last_update` marker is still
the epoch-zero sentinel `0` and not the server time `1000`: this branch
(`spaceapi.py` lines 338-345) returns before `Event.touch_last_update()` is
ever reached, refuting the claim that every no-op branch updates the
LastUpdateMarker. -/
theorem c4_counterexample :
    update_doorstate_transition 1000 500 DoorState.closed emptyStore
        = DoorResult.ok emptyStore
            { time := 0, state := "closed",
              text := "door was already closed."
                        ++ " To be honest, we don\x27t have any data yet but the"
                        ++ " first entry has to be \x27opened\x27." } ∧
    emptyStore.lastUpdate = 0 ∧ (0 : Int) ≠ 1000 :=
  ⟨rfl, rfl, by decide⟩

/-- C4 (amended): when no period exists and the validated claim is `closed`,
the engine returns the "already closed" no-op success, creates no period, and
leaves the store entirely unmodified — including the LastUpdateMarker, which
this branch (unlike the duplicate-state no-op branch) does not touch. -/
theorem c4_bootstrap_noop (now t : Int) (s : Store) (h : s.periods = []) :
    update_doorstate_transition now t DoorState.closed s
        = DoorResult.ok s
            { time := 0, state := "closed",
              text := "door was already closed."
                        ++ " To be honest, we don\x27t have any data yet but the"
                        ++ " first entry has to be \x27opened\x27." } := by
  unfold update_doorstate_transition
  rw [h]
  rfl

/-- C4 witness: the amended bootstrap rule on the empty store. -/
theorem c4_bootstrap_noop_witness :
    update_doorstate_transition 1000 500 DoorState.closed emptyStore
        = DoorResult.ok emptyStore
            { time := 0, state := "closed",
              text := "door was already closed."
                        ++ " To be honest, we don\x27t have any data yet but the"
                        ++ " first entry has to be \x27opened\x27." } :=
  c4_bootstrap_noop 1000 500 emptyStore rfl

/-- C5: `last_update_is_outdated` is true exactly when the server clock is
more than 10 minutes (600 s) past the `last_update` marker, and whenever it is
true — or no period exists — the state reported by GET `/spaceapi/door/` is
`unknown` with the explicit no-current-information text, whatever the stored
periods. -/
theorem c5_staleness_unknown (now tzOff lastUpdate : Int) (ps : List Period) :
    (last_update_is_outdated now lastUpdate = true ↔ 600 < now - lastUpdate) ∧
    ((last_update_is_outdated now lastUpdate = true ∨ ps = []) →
      (get_doorstate now tzOff { periods := ps, lastUpdate := lastUpdate }).state
          = "unknown" ∧
        (get_doorstate now tzOff { periods := ps, lastUpdate := lastUpdate }).text
          = "Keine aktuellen Informationen über den Türstatus vorhanden.") := by
  refine ⟨by simp [last_update_is_outdated], fun h => ?_⟩
  rcases h with h | h
  · unfold get_doorstate
    cases hps : (ps : List Period).getLast? with
    | none => exact ⟨rfl, rfl⟩
    | some l => simp [h]
  · subst h
    exact ⟨rfl, rfl⟩

/-- C5 witness: the marker 660 s (11 minutes) in the past and one concrete
closed period stored; the reported state is still `unknown`. -/
theorem c5_staleness_unknown_witness :
    (get_doorstate 1660 0
        { periods := [{ opened := 10, closed := some 20 }], lastUpdate := 1000 }).state
        = "unknown" ∧
      (get_doorstate 1660 0
        { periods := [{ opened := 10, closed := some 20 }], lastUpdate := 1000 }).text
        = "Keine aktuellen Informationen über den Türstatus vorhanden." :=
  (c5_staleness_unknown 1660 0 1000 [{ opened := 10, closed := some 20 }]).2
    (Or.inl (by decide))

/-- A present, non-empty string field is not falsy. -/
theorem fieldFalsy_some_eq_false {s : String} (h : s ≠ "") :
    fieldFalsy (some s) = false := by
  show s.isEmpty = false
  cases he : s.isEmpty
  · rfl
  · exact absurd ((String.isEmpty_iff s).mp he) h

/-- C6: every inbound claim fails validation with a single-field
`(field, message)` error surfaced as a 400, checked in this order: missing or
empty time/state/hmac field first; then the digest comparison against the
keyed digest of the exact string `"<time>:<state>"` (before any time parsing,
so the time field may be arbitrary garbage); then the numeric-literal check on
the time field; then the 60-second clock-skew window; then the state-value
check.  (`hmac.compare_digest` is functionally string equality; its
constant-time execution is a timing property outside the model.) -/
theorem c6_validation_order (hmacHex : String → String → String) (key : String)
    (now : Int) :
    (∀ d : RawClaim,
      fieldFalsy d.time = true ∨ fieldFalsy d.state = true ∨ fieldFalsy d.hmac = true →
      ∃ f, validate hmacHex key now d = Except.error (f, "Parameter is missing")) ∧
    (∀ tm st hm : String, tm ≠ "" → st ≠ "" → hm ≠ "" →
      calculate_hmac hmacHex tm st key ≠ hm →
      validate hmacHex key now { time := some tm, state := some st, hmac := some hm }
        = Except.error ("hmac", "HMAC digest is wrong. Do you have the right key?")) ∧
    (∀ tm st hm : String, tm ≠ "" → st ≠ "" → hm ≠ "" →
      calculate_hmac hmacHex tm st key = hm →
      isnumericStr tm = false →
      validate hmacHex key now { time := some tm, state := some st, hmac := some hm }
        = Except.error ("time", "Time has to be an integer timestamp.")) ∧
    (∀ tm st hm : String, tm ≠ "" → st ≠ "" → hm ≠ "" →
      calculate_hmac hmacHex tm st key = hm →
      isnumericStr tm = true →
      ((strToNat tm : Int) - now).natAbs > 60 →
      validate hmacHex key now { time := some tm, state := some st, hmac := some hm }
        = Except.error ("time", "Time is too far in the future or past. Use NTP!")) ∧
    (∀ tm st hm : String, tm ≠ "" → st ≠ "" → hm ≠ "" →
      calculate_hmac hmacHex tm st key = hm →
      isnumericStr tm = true →
      ((strToNat tm : Int) - now).natAbs ≤ 60 →
      st ≠ "opened" → st ≠ "closed" →
      validate hmacHex key now { time := some tm, state := some st, hmac := some hm }
        = Except.error ("state", "State has to be one of opened, closed.")) := by
  refine ⟨fun d h => ?_, fun tm st hm h1 h2 h3 h4 => ?_, fun tm st hm h1 h2 h3 h4 h5 => ?_,
    fun tm st hm h1 h2 h3 h4 h5 h6 => ?_, fun tm st hm h1 h2 h3 h4 h5 h6 h7 h8 => ?_⟩
  · unfold validate
    by_cases ht : fieldFalsy d.time
    · exact ⟨"time", by rw [if_pos ht]⟩
    · by_cases hs : fieldFalsy d.state
      · exact ⟨"state", by rw [if_neg ht, if_pos hs]⟩
      · have hh : fieldFalsy d.hmac = true := by
          rcases h with h | h | h
          · exact absurd h ht
          · exact absurd h hs
          · exact h
        exact ⟨"hmac", by rw [if_neg ht, if_neg hs, if_pos hh]⟩
  · have hft : fieldFalsy (some tm) = false := by
      exact fieldFalsy_some_eq_false h1
    have hfs : fieldFalsy (some st) = false := by
      exact fieldFalsy_some_eq_false h2
    have hfh : fieldFalsy (some hm) = false := by
      exact fieldFalsy_some_eq_false h3
    unfold validate
    simp only [hft, hfs, hfh, Bool.false_eq_true, if_false, Option.getD_some]
    rw [if_pos h4]
  · have hft : fieldFalsy (some tm) = false := by
      exact fieldFalsy_some_eq_false h1
    have hfs : fieldFalsy (some st) = false := by
      exact fieldFalsy_some_eq_false h2
    have hfh : fieldFalsy (some hm) = false := by
      exact fieldFalsy_some_eq_false h3
    unfold validate
    simp only [hft, hfs, hfh, Bool.false_eq_true, if_false, Option.getD_some]
    rw [if_neg (by simp [h4]), if_pos (by simp [h5])]
  · have hft : fieldFalsy (some tm) = false := by
      exact fieldFalsy_some_eq_false h1
    have hfs : fieldFalsy (some st) = false := by
      exact fieldFalsy_some_eq_false h2
    have hfh : fieldFalsy (some hm) = false := by
      exact fieldFalsy_some_eq_false h3
    unfold validate
    simp only [hft, hfs, hfh, Bool.false_eq_true, if_false, Option.getD_some]
    rw [if_neg (by simp [h4]), if_neg (by simp [h5]), if_pos h6]
  · have hft : fieldFalsy (some tm) = false := by
      exact fieldFalsy_some_eq_false h1
    have hfs : fieldFalsy (some st) = false := by
      exact fieldFalsy_some_eq_false h2
    have hfh : fieldFalsy (some hm) = false := by
      exact fieldFalsy_some_eq_false h3
    unfold validate
    simp only [hft, hfs, hfh, Bool.false_eq_true, if_false, Option.getD_some]
    rw [if_neg (by simp [h4]), if_neg (by simp [h5]), if_neg (by omega),
      if_pos (by simp [h7, h8])]

/-- C6 witness: with a toy digest primitive, a present-but-wrong digest on a
non-numeric time field is rejected as an HMAC error — authenticity is checked
before any time parsing. -/
theorem c6_validation_order_witness :
    validate (fun _ m => m) "k" 0
        { time := some "abc", state := some "opened", hmac := some "zz" }
      = Except.error ("hmac", "HMAC digest is wrong. Do you have the right key?") :=
  (c6_validation_order (fun _ m => m) "k" 0).2.1 "abc" "opened" "zz"
    (by decide) (by decide) (by decide) (by decide)

/-! ## Claim C1: store invariant -/

/-- The spec's link between consecutive stored periods: ascending `opened`,
the earlier one closed, and non-overlapping (`closed_i ≤ opened_{i+1}`).
Requiring the earlier one to carry a `closed` value makes every non-final
period closed, so at most one period — the last — can be open. -/
def periodLink (p q : Period) : Prop :=
  p.opened < q.opened ∧ ∃ c, p.closed = some c ∧ c ≤ q.opened

/-- The spec's per-period invariant: a present `closed` is strictly after
`opened`. -/
def periodClosedOk (p : Period) : Prop :=
  ∀ c, p.closed = some c → p.opened < c

/-- The full store invariant of the spec: every period well-formed and
consecutive periods linked. -/
def storeInv (ps : List Period) : Prop :=
  (∀ p ∈ ps, periodClosedOk p) ∧ List.Chain' periodLink ps

/-- The empty store satisfies the invariant. -/
theorem storeInv_nil : storeInv [] :=
  ⟨by simp, List.chain'_nil⟩

/-- Closing the last stored period at a time after its `opened` preserves the
invariant. -/
theorem storeInv_close (ps : List Period) (l : Period) (t : Int)
    (h : storeInv ps) (hl : ps.getLast? = some l) (ht : l.opened < t) :
    storeInv (ps.dropLast ++ [{ l with closed := some t }]) := by
  obtain ⟨hok, hch⟩ := h
  have hps : ps.dropLast ++ [l] = ps := List.dropLast_append_getLast? l hl
  constructor
  · intro p hp
    rcases List.mem_append.mp hp with hp | hp
    · exact hok p (by rw [← hps]; exact List.mem_append_left _ hp)
    · have hp' : p = { l with closed := some t } := by simpa using hp
      subst hp'
      intro c hc
      have hct : t = c := by simpa using hc
      show l.opened < c
      omega
  · rw [← hps] at hch
    rw [List.chain'_append] at hch ⊢
    refine ⟨hch.1, List.chain'_singleton _, ?_⟩
    intro x hx y hy
    have hy' : { l with closed := some t } = y := by simpa using hy
    subst hy'
    exact hch.2.2 x hx l (by simp)

/-- Appending a fresh open period after the (closed) last one preserves the
invariant. -/
theorem storeInv_snoc_open (ps : List Period) (l : Period) (cl t : Int)
    (h : storeInv ps) (hl : ps.getLast? = some l) (hc : l.closed = some cl)
    (ht : cl < t) :
    storeInv (ps ++ [{ opened := t, closed := none }]) := by
  obtain ⟨hok, hch⟩ := h
  have hlmem : l ∈ ps := by
    obtain ⟨hne, heq⟩ := List.mem_getLast?_eq_getLast (show l ∈ ps.getLast? from hl)
    rw [heq]
    exact List.getLast_mem hne
  have hlo : l.opened < cl := hok l hlmem cl hc
  constructor
  · intro p hp
    rcases List.mem_append.mp hp with hp | hp
    · exact hok p hp
    · have hp' : p = { opened := t, closed := none } := by simpa using hp
      subst hp'
      intro c hc2
      simp at hc2
  · rw [List.chain'_append]
    refine ⟨hch, List.chain'_singleton _, ?_⟩
    intro x hx y hy
    have hy' : ({ opened := t, closed := none } : Period) = y := by simpa using hy
    subst hy'
    have hx' : l = x := by rw [hl] at hx; simpa using hx
    subst hx'
    exact ⟨show l.opened < t by omega, cl, hc, show cl ≤ t by omega⟩

/-- One accepted or rejected claim preserves the store invariant. -/
theorem applyClaim_inv (s : Store) (c : Int × Int × DoorState)
    (h : storeInv s.periods) : storeInv (applyClaim s c).periods := by
  obtain ⟨now, t, st⟩ := c
  cases hl : s.periods.getLast? with
  | none =>
    have hnil : s.periods = [] := List.getLast?_eq_none_iff.mp hl
    cases st with
    | closed =>
      have heq : applyClaim s (now, t, DoorState.closed) = s := by
        unfold applyClaim update_doorstate_transition
        rw [hnil]
        rfl
      rw [heq]
      exact h
    | opened =>
      have heq : applyClaim s (now, t, DoorState.opened)
          = { periods := s.periods ++ [{ opened := t, closed := none }],
              lastUpdate := now } := by
        unfold applyClaim update_doorstate_transition apply_update
        rw [hnil]
        rfl
      rw [heq, hnil]
      refine ⟨?_, List.chain'_singleton _⟩
      intro p hp
      have hp' : p = { opened := t, closed := none } := by simpa using hp
      subst hp'
      intro c hc
      simp at hc
  | some l =>
    by_cases hdup : (l.state == st) = true
    · have heq : applyClaim s (now, t, st) = { s with lastUpdate := now } := by
        unfold applyClaim update_doorstate_transition
        rw [hl]
        simp [hdup]
      rw [heq]
      exact h
    · rw [Bool.not_eq_true] at hdup
      by_cases hmono : l.last_change_timestamp ≥ t
      · have heq : applyClaim s (now, t, st) = s := by
          unfold applyClaim update_doorstate_transition
          rw [hl]
          simp [hdup, hmono]
        rw [heq]
        exact h
      · push_neg at hmono
        cases hc : l.closed with
        | none =>
          have hopen : l.is_open = true := by simp [Period.is_open, hc]
          have hst : st = DoorState.closed := by
            cases st
            · rw [show l.state = DoorState.opened by simp [Period.state, hopen]] at hdup
              simp at hdup
            · rfl
          subst hst
          have hlct : l.last_change_timestamp = l.opened := by
            unfold Period.last_change_timestamp
            rw [hc]
          have heq : applyClaim s (now, t, DoorState.closed)
              = { periods := s.periods.dropLast ++ [{ l with closed := some t }],
                  lastUpdate := now } := by
            unfold applyClaim update_doorstate_transition apply_update
            rw [hl]
            simp [hdup, hopen]
            rw [if_neg (by omega)]
          rw [heq]
          exact storeInv_close s.periods l t h hl (by omega)
        | some cl =>
          have hopen : l.is_open = false := by simp [Period.is_open, hc]
          have hst : st = DoorState.opened := by
            cases st
            · rfl
            · rw [show l.state = DoorState.closed by simp [Period.state, hopen]] at hdup
              simp at hdup
          subst hst
          have hlct : l.last_change_timestamp = cl := by
            unfold Period.last_change_timestamp
            rw [hc]
          have heq : applyClaim s (now, t, DoorState.opened)
              = { periods := s.periods ++ [{ opened := t, closed := none }],
                  lastUpdate := now } := by
            unfold applyClaim update_doorstate_transition apply_update
            rw [hl]
            simp [hdup, hopen]
            rw [if_neg (by omega)]
          rw [heq]
          exact storeInv_snoc_open s.periods l cl t h hl hc (by omega)

/-- Every non-final period under the chain invariant carries a `closed`
value. -/
theorem chain'_dropLast_closed :
    ∀ ps : List Period, List.Chain' periodLink ps →
      ∀ p ∈ ps.dropLast, ∃ c, p.closed = some c
  | [], _, p, hp => by simp at hp
  | [_], _, p, hp => by simp at hp
  | x :: y :: rest, hch, p, hp => by
    rw [List.dropLast_cons₂] at hp
    rcases List.mem_cons.mp hp with hp | hp
    · subst hp
      obtain ⟨hlink, _⟩ := List.chain'_cons.mp hch
      exact ⟨hlink.2.choose, hlink.2.choose_spec.1⟩
    · exact chain'_dropLast_closed (y :: rest) (List.chain'_cons.mp hch).2 p hp

/-- C1: starting from the empty store, after any sequence of claims processed
by the transition engine (accepted ones applied, rejected ones leaving the
store unchanged) the stored period sequence satisfies the spec invariant:
consecutive periods have strictly ascending `opened` and do not overlap
(`closed_i ≤ opened_{i+1}`), every present `closed` is strictly after its
`opened`, and every period except possibly the last carries a `closed` value —
so at most one period, the latest, is still open. -/
theorem c1_store_invariant (cs : List (Int × Int × DoorState)) :
    storeInv (applyClaims cs emptyStore).periods ∧
      ∀ p ∈ (applyClaims cs emptyStore).periods.dropLast, ∃ c, p.closed = some c := by
  have hgen : ∀ s : Store, storeInv s.periods → storeInv (applyClaims cs s).periods := by
    induction cs with
    | nil => exact fun s hs => hs
    | cons c cs ih => exact fun s hs => ih (applyClaim s c) (applyClaim_inv s c hs)
  have hinv := hgen emptyStore storeInv_nil
  exact ⟨hinv, chain'_dropLast_closed _ hinv.2⟩
